import Mathlib

/-!
Verification development for the CryptoCore AES engine (`src/aes.c`,
`src/general.c`, `include/aes.h`, `include/general.h`, `tests/aes_tests.c`).

The implemented execution path of the repository is the AES-NI hardware path;
every `/* C implementation */` branch in `aes.c` is empty, so a function entered
with `hardware.aes == false` returns without writing.  We model 16-byte SSE
registers (`__m128i`) as `Block`: four 4-byte columns (`Col`) of bytes, in
memory order (`col0.c0` is the byte at the lowest address, i.e. the least
significant byte of the lowest 32-bit lane).  The AES-NI instructions
(`aesenc`, `aesdec`, `aesenclast`, `aesdeclast`, `aesimc`, `aeskeygenassist`,
`slli_si128`, `shuffle_epi32`) are given their architectural semantics.
Schedules are lists of blocks (or of 4-byte words for AES-192, whose key
generator stores at word granularity); the caller-provided output buffer is an
explicit argument so that which bytes are and are not written is visible.
-/

set_option maxRecDepth 100000

/-- Bytes are naturals below 256. -/
abbrev Byte := Fin 256

/-- Reduce a natural to a byte (used when building bytes from table entries). -/
def mkByte (n : Nat) : Byte := ⟨n % 256, Nat.mod_lt _ (by decide)⟩

/-- The byte 0. -/
def zeroByte : Byte := ⟨0, by decide⟩

theorem xor_byte_lt {a b : Nat} (ha : a < 256) (hb : b < 256) : a ^^^ b < 256 := by
  have h : Nat.bitwise bne a b < 2 ^ 8 :=
    Nat.bitwise_lt (by simpa using ha) (by simpa using hb)
  simpa using h

/-- Bitwise xor on bytes. -/
def bxor (a b : Byte) : Byte := ⟨a.1 ^^^ b.1, xor_byte_lt a.2 b.2⟩

/-- Multiplication by x in GF(2^8) with the AES reduction polynomial 0x11B. -/
def xtime (b : Byte) : Byte :=
  ⟨((2 * b.1) ^^^ (if 128 ≤ b.1 then 0x11B else 0)) % 256, Nat.mod_lt _ (by decide)⟩

/-- Multiplication by 3 in GF(2^8). -/
def gm3 (b : Byte) : Byte := bxor (xtime b) b

/-- Multiplication by 9 in GF(2^8). -/
def gm9 (b : Byte) : Byte := bxor (xtime (xtime (xtime b))) b

/-- Multiplication by 11 (0x0B) in GF(2^8). -/
def gm11 (b : Byte) : Byte := bxor (bxor (xtime (xtime (xtime b))) (xtime b)) b

/-- Multiplication by 13 (0x0D) in GF(2^8). -/
def gm13 (b : Byte) : Byte := bxor (bxor (xtime (xtime (xtime b))) (xtime (xtime b))) b

/-- Multiplication by 14 (0x0E) in GF(2^8). -/
def gm14 (b : Byte) : Byte :=
  bxor (bxor (xtime (xtime (xtime b))) (xtime (xtime b))) (xtime b)

/-- The forward substitution box `Sbox` of `src/aes.c` (lines 24-41). -/
def SboxT : List Nat := [
  0x63, 0x7c, 0x77, 0x7b, 0xf2, 0x6b, 0x6f, 0xc5, 0x30, 0x01, 0x67, 0x2b, 0xfe, 0xd7, 0xab, 0x76,
  0xca, 0x82, 0xc9, 0x7d, 0xfa, 0x59, 0x47, 0xf0, 0xad, 0xd4, 0xa2, 0xaf, 0x9c, 0xa4, 0x72, 0xc0,
  0xb7, 0xfd, 0x93, 0x26, 0x36, 0x3f, 0xf7, 0xcc, 0x34, 0xa5, 0xe5, 0xf1, 0x71, 0xd8, 0x31, 0x15,
  0x04, 0xc7, 0x23, 0xc3, 0x18, 0x96, 0x05, 0x9a, 0x07, 0x12, 0x80, 0xe2, 0xeb, 0x27, 0xb2, 0x75,
  0x09, 0x83, 0x2c, 0x1a, 0x1b, 0x6e, 0x5a, 0xa0, 0x52, 0x3b, 0xd6, 0xb3, 0x29, 0xe3, 0x2f, 0x84,
  0x53, 0xd1, 0x00, 0xed, 0x20, 0xfc, 0xb1, 0x5b, 0x6a, 0xcb, 0xbe, 0x39, 0x4a, 0x4c, 0x58, 0xcf,
  0xd0, 0xef, 0xaa, 0xfb, 0x43, 0x4d, 0x33, 0x85, 0x45, 0xf9, 0x02, 0x7f, 0x50, 0x3c, 0x9f, 0xa8,
  0x51, 0xa3, 0x40, 0x8f, 0x92, 0x9d, 0x38, 0xf5, 0xbc, 0xb6, 0xda, 0x21, 0x10, 0xff, 0xf3, 0xd2,
  0xcd, 0x0c, 0x13, 0xec, 0x5f, 0x97, 0x44, 0x17, 0xc4, 0xa7, 0x7e, 0x3d, 0x64, 0x5d, 0x19, 0x73,
  0x60, 0x81, 0x4f, 0xdc, 0x22, 0x2a, 0x90, 0x88, 0x46, 0xee, 0xb8, 0x14, 0xde, 0x5e, 0x0b, 0xdb,
  0xe0, 0x32, 0x3a, 0x0a, 0x49, 0x06, 0x24, 0x5c, 0xc2, 0xd3, 0xac, 0x62, 0x91, 0x95, 0xe4, 0x79,
  0xe7, 0xc8, 0x37, 0x6d, 0x8d, 0xd5, 0x4e, 0xa9, 0x6c, 0x56, 0xf4, 0xea, 0x65, 0x7a, 0xae, 0x08,
  0xba, 0x78, 0x25, 0x2e, 0x1c, 0xa6, 0xb4, 0xc6, 0xe8, 0xdd, 0x74, 0x1f, 0x4b, 0xbd, 0x8b, 0x8a,
  0x70, 0x3e, 0xb5, 0x66, 0x48, 0x03, 0xf6, 0x0e, 0x61, 0x35, 0x57, 0xb9, 0x86, 0xc1, 0x1d, 0x9e,
  0xe1, 0xf8, 0x98, 0x11, 0x69, 0xd9, 0x8e, 0x94, 0x9b, 0x1e, 0x87, 0xe9, 0xce, 0x55, 0x28, 0xdf,
  0x8c, 0xa1, 0x89, 0x0d, 0xbf, 0xe6, 0x42, 0x68, 0x41, 0x99, 0x2d, 0x0f, 0xb0, 0x54, 0xbb, 0x16
]

/-- The inverse substitution box `InvSbox` of `src/aes.c` (lines 43-60). -/
def InvSboxT : List Nat := [
  0x52, 0x09, 0x6a, 0xd5, 0x30, 0x36, 0xa5, 0x38, 0xbf, 0x40, 0xa3, 0x9e, 0x81, 0xf3, 0xd7, 0xfb,
  0x7c, 0xe3, 0x39, 0x82, 0x9b, 0x2f, 0xff, 0x87, 0x34, 0x8e, 0x43, 0x44, 0xc4, 0xde, 0xe9, 0xcb,
  0x54, 0x7b, 0x94, 0x32, 0xa6, 0xc2, 0x23, 0x3d, 0xee, 0x4c, 0x95, 0x0b, 0x42, 0xfa, 0xc3, 0x4e,
  0x08, 0x2e, 0xa1, 0x66, 0x28, 0xd9, 0x24, 0xb2, 0x76, 0x5b, 0xa2, 0x49, 0x6d, 0x8b, 0xd1, 0x25,
  0x72, 0xf8, 0xf6, 0x64, 0x86, 0x68, 0x98, 0x16, 0xd4, 0xa4, 0x5c, 0xcc, 0x5d, 0x65, 0xb6, 0x92,
  0x6c, 0x70, 0x48, 0x50, 0xfd, 0xed, 0xb9, 0xda, 0x5e, 0x15, 0x46, 0x57, 0xa7, 0x8d, 0x9d, 0x84,
  0x90, 0xd8, 0xab, 0x00, 0x8c, 0xbc, 0xd3, 0x0a, 0xf7, 0xe4, 0x58, 0x05, 0xb8, 0xb3, 0x45, 0x06,
  0xd0, 0x2c, 0x1e, 0x8f, 0xca, 0x3f, 0x0f, 0x02, 0xc1, 0xaf, 0xbd, 0x03, 0x01, 0x13, 0x8a, 0x6b,
  0x3a, 0x91, 0x11, 0x41, 0x4f, 0x67, 0xdc, 0xea, 0x97, 0xf2, 0xcf, 0xce, 0xf0, 0xb4, 0xe6, 0x73,
  0x96, 0xac, 0x74, 0x22, 0xe7, 0xad, 0x35, 0x85, 0xe2, 0xf9, 0x37, 0xe8, 0x1c, 0x75, 0xdf, 0x6e,
  0x47, 0xf1, 0x1a, 0x71, 0x1d, 0x29, 0xc5, 0x89, 0x6f, 0xb7, 0x62, 0x0e, 0xaa, 0x18, 0xbe, 0x1b,
  0xfc, 0x56, 0x3e, 0x4b, 0xc6, 0xd2, 0x79, 0x20, 0x9a, 0xdb, 0xc0, 0xfe, 0x78, 0xcd, 0x5a, 0xf4,
  0x1f, 0xdd, 0xa8, 0x33, 0x88, 0x07, 0xc7, 0x31, 0xb1, 0x12, 0x10, 0x59, 0x27, 0x80, 0xec, 0x5f,
  0x60, 0x51, 0x7f, 0xa9, 0x19, 0xb5, 0x4a, 0x0d, 0x2d, 0xe5, 0x7a, 0x9f, 0x93, 0xc9, 0x9c, 0xef,
  0xa0, 0xe0, 0x3b, 0x4d, 0xae, 0x2a, 0xf5, 0xb0, 0xc8, 0xeb, 0xbb, 0x3c, 0x83, 0x53, 0x99, 0x61,
  0x17, 0x2b, 0x04, 0x7e, 0xba, 0x77, 0xd6, 0x26, 0xe1, 0x69, 0x14, 0x63, 0x55, 0x21, 0x0c, 0x7d
]

/-- Forward S-box lookup on a byte. -/
def sbox (b : Byte) : Byte := mkByte (SboxT.getD b.1 0)

/-- Inverse S-box lookup on a byte. -/
def invSbox (b : Byte) : Byte := mkByte (InvSboxT.getD b.1 0)

/-- A 4-byte word (one 32-bit lane of an SSE register, in memory order:
`c0` is the byte at the lowest address / least significant byte). -/
structure Col where
  c0 : Byte
  c1 : Byte
  c2 : Byte
  c3 : Byte
deriving DecidableEq

/-- A 16-byte block (one `__m128i` register / one AES state), as four words in
memory order: `col0` is the lowest-addressed (least significant) 32-bit lane. -/
structure Block where
  col0 : Col
  col1 : Col
  col2 : Col
  col3 : Col
deriving DecidableEq

/-- The all-zero word. -/
def zeroCol : Col := ⟨zeroByte, zeroByte, zeroByte, zeroByte⟩

/-- The all-zero block. -/
def zeroBlock : Block := ⟨zeroCol, zeroCol, zeroCol, zeroCol⟩

/-- Bytewise xor of two words. -/
def xorCol (a b : Col) : Col :=
  ⟨bxor a.c0 b.c0, bxor a.c1 b.c1, bxor a.c2 b.c2, bxor a.c3 b.c3⟩

/-- Bytewise xor of two blocks (`_mm_xor_si128`). -/
def xorB (a b : Block) : Block :=
  ⟨xorCol a.col0 b.col0, xorCol a.col1 b.col1,
   xorCol a.col2 b.col2, xorCol a.col3 b.col3⟩

/-- Apply a byte function to each byte of a word. -/
def mapCol (f : Byte → Byte) (c : Col) : Col := ⟨f c.c0, f c.c1, f c.c2, f c.c3⟩

/-- Apply a byte function to each byte of a block. -/
def mapBlock (f : Byte → Byte) (b : Block) : Block :=
  ⟨mapCol f b.col0, mapCol f b.col1, mapCol f b.col2, mapCol f b.col3⟩

/-- AES SubBytes: forward S-box on every byte of the state. -/
def subBytes (b : Block) : Block := mapBlock sbox b

/-- AES InvSubBytes. -/
def invSubBytes (b : Block) : Block := mapBlock invSbox b

/-- AES ShiftRows.  The state is column-major: byte `r` of `col c` is row `r`,
column `c`; row `r` rotates left by `r`, so the output byte at row `r`,
column `c` is the input byte at row `r`, column `(c + r) mod 4`. -/
def shiftRows (b : Block) : Block :=
  ⟨⟨b.col0.c0, b.col1.c1, b.col2.c2, b.col3.c3⟩,
   ⟨b.col1.c0, b.col2.c1, b.col3.c2, b.col0.c3⟩,
   ⟨b.col2.c0, b.col3.c1, b.col0.c2, b.col1.c3⟩,
   ⟨b.col3.c0, b.col0.c1, b.col1.c2, b.col2.c3⟩⟩

/-- AES InvShiftRows: row `r` rotates right by `r`. -/
def invShiftRows (b : Block) : Block :=
  ⟨⟨b.col0.c0, b.col3.c1, b.col2.c2, b.col1.c3⟩,
   ⟨b.col1.c0, b.col0.c1, b.col3.c2, b.col2.c3⟩,
   ⟨b.col2.c0, b.col1.c1, b.col0.c2, b.col3.c3⟩,
   ⟨b.col3.c0, b.col2.c1, b.col1.c2, b.col0.c3⟩⟩

/-- AES MixColumns on one column. -/
def mixCol (c : Col) : Col :=
  ⟨bxor (bxor (xtime c.c0) (gm3 c.c1)) (bxor c.c2 c.c3),
   bxor (bxor c.c0 (xtime c.c1)) (bxor (gm3 c.c2) c.c3),
   bxor (bxor c.c0 c.c1) (bxor (xtime c.c2) (gm3 c.c3)),
   bxor (bxor (gm3 c.c0) c.c1) (bxor c.c2 (xtime c.c3))⟩

/-- AES InvMixColumns on one column. -/
def invMixCol (c : Col) : Col :=
  ⟨bxor (bxor (gm14 c.c0) (gm11 c.c1)) (bxor (gm13 c.c2) (gm9 c.c3)),
   bxor (bxor (gm9 c.c0) (gm14 c.c1)) (bxor (gm11 c.c2) (gm13 c.c3)),
   bxor (bxor (gm13 c.c0) (gm9 c.c1)) (bxor (gm14 c.c2) (gm11 c.c3)),
   bxor (bxor (gm11 c.c0) (gm13 c.c1)) (bxor (gm9 c.c2) (gm14 c.c3))⟩

/-- AES MixColumns on the state. -/
def mixColumns (b : Block) : Block :=
  ⟨mixCol b.col0, mixCol b.col1, mixCol b.col2, mixCol b.col3⟩

/-- AES InvMixColumns on the state. -/
def invMixColumns (b : Block) : Block :=
  ⟨invMixCol b.col0, invMixCol b.col1, invMixCol b.col2, invMixCol b.col3⟩

/-- Architectural semantics of `_mm_aesenc_si128 m k`:
ShiftRows, SubBytes, MixColumns, then xor with the round key. -/
def aesenc (m k : Block) : Block := xorB (mixColumns (subBytes (shiftRows m))) k

/-- Architectural semantics of `_mm_aesenclast_si128 m k` (no MixColumns). -/
def aesenclast (m k : Block) : Block := xorB (subBytes (shiftRows m)) k

/-- Architectural semantics of `_mm_aesdec_si128 m k`:
InvShiftRows, InvSubBytes, InvMixColumns, then xor with the round key. -/
def aesdec (m k : Block) : Block := xorB (invMixColumns (invSubBytes (invShiftRows m))) k

/-- Architectural semantics of `_mm_aesdeclast_si128 m k` (no InvMixColumns). -/
def aesdeclast (m k : Block) : Block := xorB (invSubBytes (invShiftRows m)) k

/-- Architectural semantics of `_mm_aesimc_si128`. -/
def aesimc (m : Block) : Block := invMixColumns m

/-- One-byte left circular rotation of a word, as the AES-NI keygen-assist
RotWord acts on a little-endian 32-bit lane. -/
def rotCol (c : Col) : Col := ⟨c.c1, c.c2, c.c3, c.c0⟩

/-- A round constant as a 32-bit lane: the immediate in the low byte. -/
def rconCol (r : Nat) : Col := ⟨mkByte r, zeroByte, zeroByte, zeroByte⟩

/-- Architectural semantics of `_mm_aeskeygenassist_si128 a r` with lanes
`X0..X3`: the result lanes are `SubWord X1`, `RotWord (SubWord X1) ^ r`,
`SubWord X3`, `RotWord (SubWord X3) ^ r`. -/
def aeskeygenassist (a : Block) (r : Nat) : Block :=
  ⟨mapCol sbox a.col1,
   xorCol (rotCol (mapCol sbox a.col1)) (rconCol r),
   mapCol sbox a.col3,
   xorCol (rotCol (mapCol sbox a.col3)) (rconCol r)⟩

/-- Architectural semantics of `_mm_slli_si128 b 4` (byte shift toward higher
addresses, zero fill). -/
def slli4 (b : Block) : Block := ⟨zeroCol, b.col0, b.col1, b.col2⟩

/-- Architectural semantics of `_mm_slli_si128 b 8`. -/
def slli8 (b : Block) : Block := ⟨zeroCol, zeroCol, b.col0, b.col1⟩

/-- `_mm_shuffle_epi32 b (_MM_SHUFFLE 3 3 3 3)`: broadcast lane 3. -/
def broadcast3 (b : Block) : Block := ⟨b.col3, b.col3, b.col3, b.col3⟩

/-- `_mm_shuffle_epi32 b (_MM_SHUFFLE 2 2 2 2)`: broadcast lane 2. -/
def broadcast2 (b : Block) : Block := ⟨b.col2, b.col2, b.col2, b.col2⟩

/-- The macro `AES_KEY_EXP_ITER_FIRST4` of `src/aes.c` lines 175-179:
two prefix-xor steps and an xor with the broadcast last lane of the
keygen-assist result. -/
def keyExpIterFirst4 (above keygen : Block) : Block :=
  xorB (xorB (xorB above (slli4 above)) (slli8 (xorB above (slli4 above))))
    (broadcast3 keygen)

/-- One pass of the AES-128 keygen loop (`rcon_cases_loop`, lines 190-211):
keygen assist with the round constant on the previous four words, then the
expansion iteration. -/
def aes128Step (last : Block) (r : Nat) : Block :=
  keyExpIterFirst4 last (aeskeygenassist last r)

/-- Round constants used by `aes128_load_key_internal`, in program order
(lines 187 and 200-208). -/
def rcons128 : List Nat := [0x01, 0x02, 0x04, 0x08, 0x10, 0x20, 0x40, 0x80, 0x1B, 0x36]

/-- Round key `i` of the AES-128 hardware key expansion: `aes128Key key 0`
is the original key, and each later round key is one `aes128Step`. -/
def aes128Key (key : Block) : Nat → Block
  | 0 => key
  | i + 1 => aes128Step (aes128Key key i) (rcons128.getD i 0)

/-- The eleven blocks stored by the keygen loop of `aes128_load_key_internal`
(lines 184-211), in store order. -/
def aes128EncSchedule (key : Block) : List Block :=
  [aes128Key key 0, aes128Key key 1, aes128Key key 2, aes128Key key 3,
   aes128Key key 4, aes128Key key 5, aes128Key key 6, aes128Key key 7,
   aes128Key key 8, aes128Key key 9, aes128Key key 10]

/-- The nine blocks stored at indices 11-19 by the `full` branch of
`aes128_load_key_internal` (lines 213-224): `ks[11] = aesimc ks[9]` down to
`ks[19] = aesimc ks[1]`. -/
def aes128DecTail (enc : List Block) : List Block :=
  [aesimc (enc.getD 9 zeroBlock), aesimc (enc.getD 8 zeroBlock),
   aesimc (enc.getD 7 zeroBlock), aesimc (enc.getD 6 zeroBlock),
   aesimc (enc.getD 5 zeroBlock), aesimc (enc.getD 4 zeroBlock),
   aesimc (enc.getD 3 zeroBlock), aesimc (enc.getD 2 zeroBlock),
   aesimc (enc.getD 1 zeroBlock)]

/-- Model of `aes128_load_key_internal` (lines 181-228).  `buf` is the
caller's schedule buffer as 20 blocks; entries the function does not store
keep their previous contents, and with `hw = false` nothing is written
(the `/* C implementation */` branch is empty). -/
def aes128_load_key_internal (hw : Bool) (key : Block) (buf : List Block)
    (full : Bool) : List Block :=
  if hw then
    let enc := aes128EncSchedule key
    if full then enc ++ aes128DecTail enc else enc ++ buf.drop 11
  else buf

/-- A 192-bit key: four words in the low `__m128i` load plus two more words. -/
structure Key192 where
  blk : Block
  w4 : Col
  w5 : Col
deriving DecidableEq

/-- The register `last_56` as first loaded by `_mm_loadl_epi64`
(line 234): the two high lanes are zero. -/
def key192half (k : Key192) : Block := ⟨k.w4, k.w5, zeroCol, zeroCol⟩

/-- The two-word substep of the AES-192 `rcon_cases_loop` (lines 245-248):
`subword` is the broadcast lane 2 of a zero-rcon keygen assist on the
four-word register, i.e. `SubWord X3` of that register. -/
def upd56 (p56 f4 : Block) : Block :=
  xorB (xorB p56 (slli4 p56)) (broadcast2 (aeskeygenassist f4 0))

/-- Simultaneous state update of one AES-192 keygen pass: the new four-word
register uses the keygen assist of the PREVIOUS two-word register (the switch
computes `keygen` before `rcon_cases_loop` updates `last_56`), and the new
two-word register uses the previous four-word register's `SubWord X3`. -/
def aes192StateStep (st : Block × Block) (r : Nat) : Block × Block :=
  (keyExpIterFirst4 st.1 (aeskeygenassist st.2 r), upd56 st.2 st.1)

/-- Round constants of the AES-192 keygen cases 0-6 (lines 259-268). -/
def rcons192 : List Nat := [0x02, 0x04, 0x08, 0x10, 0x20, 0x40, 0x80]

/-- State chain of the AES-192 keygen: `aes192St k 0` is the state after the
initial `first_four` (with round constant 0x01, line 238), `aes192St k (i+1)`
after the pass triggered by case `i`. -/
def aes192St (k : Key192) : Nat → Block × Block
  | 0 => (keyExpIterFirst4 k.blk (aeskeygenassist (key192half k) 0x01), key192half k)
  | i + 1 => aes192StateStep (aes192St k i) (rcons192.getD i 0)

/-- The four words of a block, in memory order. -/
def blockCols (b : Block) : List Col := [b.col0, b.col1, b.col2, b.col3]

/-- The 50 schedule words actually stored by the AES-192 keygen
(lines 232-270), in store order: the 6 key words, then the `first_four`
block, then for each of cases 0-5 the two-word store followed by the
four-word store, then the four-word store of case 6.  Words 50 and 51 of
the 52-word encryption schedule are never stored. -/
def aes192EncWords (k : Key192) : List Col :=
  blockCols k.blk ++ [k.w4, k.w5]
  ++ blockCols (aes192St k 0).1
  ++ [(aes192St k 1).2.col0, (aes192St k 1).2.col1] ++ blockCols (aes192St k 1).1
  ++ [(aes192St k 2).2.col0, (aes192St k 2).2.col1] ++ blockCols (aes192St k 2).1
  ++ [(aes192St k 3).2.col0, (aes192St k 3).2.col1] ++ blockCols (aes192St k 3).1
  ++ [(aes192St k 4).2.col0, (aes192St k 4).2.col1] ++ blockCols (aes192St k 4).1
  ++ [(aes192St k 5).2.col0, (aes192St k 5).2.col1] ++ blockCols (aes192St k 5).1
  ++ [(aes192St k 6).2.col0, (aes192St k 6).2.col1] ++ blockCols (aes192St k 6).1
  ++ blockCols (aes192St k 7).1

/-- Round key `i` (a 16-byte block) of a word-granular schedule. -/
def colsBlockAt (s : List Col) (i : Nat) : Block :=
  ⟨s.getD (4 * i) zeroCol, s.getD (4 * i + 1) zeroCol,
   s.getD (4 * i + 2) zeroCol, s.getD (4 * i + 3) zeroCol⟩

/-- The eleven blocks stored at block indices 13-23 by the `full` branch of
`aes192_load_key_internal` (lines 272-285): `ks[13] = aesimc ks[11]` down to
`ks[23] = aesimc ks[1]`, given here as words. -/
def aes192DecTailWords (s : List Col) : List Col :=
  blockCols (aesimc (colsBlockAt s 11)) ++ blockCols (aesimc (colsBlockAt s 10))
  ++ blockCols (aesimc (colsBlockAt s 9)) ++ blockCols (aesimc (colsBlockAt s 8))
  ++ blockCols (aesimc (colsBlockAt s 7)) ++ blockCols (aesimc (colsBlockAt s 6))
  ++ blockCols (aesimc (colsBlockAt s 5)) ++ blockCols (aesimc (colsBlockAt s 4))
  ++ blockCols (aesimc (colsBlockAt s 3)) ++ blockCols (aesimc (colsBlockAt s 2))
  ++ blockCols (aesimc (colsBlockAt s 1))

/-- Model of `aes192_load_key_internal` (lines 230-289) at word granularity
(its stores are word-granular).  Words 50 and 51 keep the buffer's previous
contents; the decryption tail is derived from the resulting schedule. -/
def aes192_load_key_internal (hw : Bool) (key : Key192) (buf : List Col)
    (full : Bool) : List Col :=
  if hw then
    let encPart := aes192EncWords key ++ [buf.getD 50 zeroCol, buf.getD 51 zeroCol]
    if full then encPart ++ aes192DecTailWords encPart else encPart ++ buf.drop 52
  else buf

/-- A 256-bit key: two 16-byte halves. -/
structure Key256 where
  lo : Block
  hi : Block
deriving DecidableEq

/-- The four-word substep of the AES-256 `rcon_cases_loop` (lines 307-312). -/
def upd256 (b a : Block) : Block :=
  xorB (xorB (xorB b (slli4 b)) (slli8 (xorB b (slli4 b))))
    (broadcast2 (aeskeygenassist a 0))

/-- Simultaneous state update of one AES-256 keygen pass: the keygen assist
for the new `a` is computed from `b` BEFORE `b` is updated. -/
def aes256StateStep (st : Block × Block) (r : Nat) : Block × Block :=
  (keyExpIterFirst4 st.1 (aeskeygenassist st.2 r), upd256 st.2 st.1)

/-- Round constants of the AES-256 keygen cases 0-5 (lines 322-330). -/
def rcons256 : List Nat := [0x02, 0x04, 0x08, 0x10, 0x20, 0x40]

/-- State chain of the AES-256 keygen: `aes256St k 0` after the initial
`first_four` with round constant 0x01 (line 299). -/
def aes256St (k : Key256) : Nat → Block × Block
  | 0 => (keyExpIterFirst4 k.lo (aeskeygenassist k.hi 0x01), k.hi)
  | i + 1 => aes256StateStep (aes256St k i) (rcons256.getD i 0)

/-- The 14 blocks actually stored by the AES-256 keygen (lines 293-332), in
store order; block 14 of the 15-block encryption schedule is never stored. -/
def aes256EncStored (k : Key256) : List Block :=
  [k.lo, k.hi, (aes256St k 0).1,
   (aes256St k 1).2, (aes256St k 1).1,
   (aes256St k 2).2, (aes256St k 2).1,
   (aes256St k 3).2, (aes256St k 3).1,
   (aes256St k 4).2, (aes256St k 4).1,
   (aes256St k 5).2, (aes256St k 5).1,
   (aes256St k 6).1]

/-- The thirteen blocks stored at indices 15-27 by the `full` branch of
`aes256_load_key_internal` (lines 334-349). -/
def aes256DecTail (enc : List Block) : List Block :=
  [aesimc (enc.getD 13 zeroBlock), aesimc (enc.getD 12 zeroBlock),
   aesimc (enc.getD 11 zeroBlock), aesimc (enc.getD 10 zeroBlock),
   aesimc (enc.getD 9 zeroBlock), aesimc (enc.getD 8 zeroBlock),
   aesimc (enc.getD 7 zeroBlock), aesimc (enc.getD 6 zeroBlock),
   aesimc (enc.getD 5 zeroBlock), aesimc (enc.getD 4 zeroBlock),
   aesimc (enc.getD 3 zeroBlock), aesimc (enc.getD 2 zeroBlock),
   aesimc (enc.getD 1 zeroBlock)]

/-- Model of `aes256_load_key_internal` (lines 291-353).  Block 14 keeps the
buffer's previous contents. -/
def aes256_load_key_internal (hw : Bool) (key : Key256) (buf : List Block)
    (full : Bool) : List Block :=
  if hw then
    let encPart := aes256EncStored key ++ [buf.getD 14 zeroBlock]
    if full then encPart ++ aes256DecTail encPart else encPart ++ buf.drop 15
  else buf

/-- The macro `AES128_ENC_BLOCK_AMD64` (lines 385-388) on round keys
`k0..k10` loaded from a block-granular schedule. -/
def aes128EncBlock (s : List Block) (m : Block) : Block :=
  aesenclast
    (aesenc (aesenc (aesenc (aesenc (aesenc (aesenc (aesenc (aesenc (aesenc
      (xorB m (s.getD 0 zeroBlock))
      (s.getD 1 zeroBlock)) (s.getD 2 zeroBlock)) (s.getD 3 zeroBlock))
      (s.getD 4 zeroBlock)) (s.getD 5 zeroBlock)) (s.getD 6 zeroBlock))
      (s.getD 7 zeroBlock)) (s.getD 8 zeroBlock)) (s.getD 9 zeroBlock))
    (s.getD 10 zeroBlock)

/-- The macro `AES128_DEC_BLOCK_AMD64` (lines 406-409): xor with key 10, nine
`aesdec` rounds with keys 11-19, and `aesdeclast` with key 0. -/
def aes128DecBlock (s : List Block) (m : Block) : Block :=
  aesdeclast
    (aesdec (aesdec (aesdec (aesdec (aesdec (aesdec (aesdec (aesdec (aesdec
      (xorB m (s.getD 10 zeroBlock))
      (s.getD 11 zeroBlock)) (s.getD 12 zeroBlock)) (s.getD 13 zeroBlock))
      (s.getD 14 zeroBlock)) (s.getD 15 zeroBlock)) (s.getD 16 zeroBlock))
      (s.getD 17 zeroBlock)) (s.getD 18 zeroBlock)) (s.getD 19 zeroBlock))
    (s.getD 0 zeroBlock)

/-- The macro `AES192_ENC_BLOCK_AMD64` (lines 390-395) on a word-granular
schedule: keys 0-11 with `aesenc`, key 12 with `aesenclast`. -/
def aes192EncBlock (s : List Col) (m : Block) : Block :=
  aesenclast
    (aesenc (aesenc (aesenc (aesenc (aesenc (aesenc (aesenc (aesenc (aesenc
      (aesenc (aesenc
      (xorB m (colsBlockAt s 0))
      (colsBlockAt s 1)) (colsBlockAt s 2)) (colsBlockAt s 3))
      (colsBlockAt s 4)) (colsBlockAt s 5)) (colsBlockAt s 6))
      (colsBlockAt s 7)) (colsBlockAt s 8)) (colsBlockAt s 9))
      (colsBlockAt s 10)) (colsBlockAt s 11))
    (colsBlockAt s 12)

/-- The macro `AES192_DEC_BLOCK_AMD64` (lines 411-416): xor with key 12,
eleven `aesdec` rounds with keys 13-23, and `aesdeclast` with key 0. -/
def aes192DecBlock (s : List Col) (m : Block) : Block :=
  aesdeclast
    (aesdec (aesdec (aesdec (aesdec (aesdec (aesdec (aesdec (aesdec (aesdec
      (aesdec (aesdec
      (xorB m (colsBlockAt s 12))
      (colsBlockAt s 13)) (colsBlockAt s 14)) (colsBlockAt s 15))
      (colsBlockAt s 16)) (colsBlockAt s 17)) (colsBlockAt s 18))
      (colsBlockAt s 19)) (colsBlockAt s 20)) (colsBlockAt s 21))
      (colsBlockAt s 22)) (colsBlockAt s 23))
    (colsBlockAt s 0)

/-- The macro `AES256_ENC_BLOCK_AMD64` (lines 397-404): keys 0-13 with
`aesenc`, key 14 with `aesenclast`. -/
def aes256EncBlock (s : List Block) (m : Block) : Block :=
  aesenclast
    (aesenc (aesenc (aesenc (aesenc (aesenc (aesenc (aesenc (aesenc (aesenc
      (aesenc (aesenc (aesenc (aesenc
      (xorB m (s.getD 0 zeroBlock))
      (s.getD 1 zeroBlock)) (s.getD 2 zeroBlock)) (s.getD 3 zeroBlock))
      (s.getD 4 zeroBlock)) (s.getD 5 zeroBlock)) (s.getD 6 zeroBlock))
      (s.getD 7 zeroBlock)) (s.getD 8 zeroBlock)) (s.getD 9 zeroBlock))
      (s.getD 10 zeroBlock)) (s.getD 11 zeroBlock)) (s.getD 12 zeroBlock))
      (s.getD 13 zeroBlock))
    (s.getD 14 zeroBlock)

/-- The macro `AES256_DEC_BLOCK_AMD64` (lines 418-425): xor with key 14,
thirteen `aesdec` rounds with keys 15-27, and `aesdeclast` with key 0. -/
def aes256DecBlock (s : List Block) (m : Block) : Block :=
  aesdeclast
    (aesdec (aesdec (aesdec (aesdec (aesdec (aesdec (aesdec (aesdec (aesdec
      (aesdec (aesdec (aesdec (aesdec
      (xorB m (s.getD 14 zeroBlock))
      (s.getD 15 zeroBlock)) (s.getD 16 zeroBlock)) (s.getD 17 zeroBlock))
      (s.getD 18 zeroBlock)) (s.getD 19 zeroBlock)) (s.getD 20 zeroBlock))
      (s.getD 21 zeroBlock)) (s.getD 22 zeroBlock)) (s.getD 23 zeroBlock))
      (s.getD 24 zeroBlock)) (s.getD 25 zeroBlock)) (s.getD 26 zeroBlock))
      (s.getD 27 zeroBlock))
    (s.getD 0 zeroBlock)

/-- The per-block loop of the `*_crypt_blocks` functions: load the block at
`src`, transform it, store at `dst`, advance both pointers, `n` times.
`mem` is the memory holding both buffers, at block granularity (the source
and destination of one block may be the same cell: the load happens before
the store, as in the C loop). -/
def transformLoop (f : Block → Block) : List Block → Nat → Nat → Nat → List Block
  | mem, _, _, 0 => mem
  | mem, src, dst, n + 1 =>
    transformLoop f (mem.set dst (f (mem.getD src zeroBlock))) (src + 1) (dst + 1) n

/-- Model of `aes128_encrypt_blocks` (lines 445-459): with hardware the loop
runs, otherwise nothing is written. -/
def aes128_encrypt_blocks (hw : Bool) (s : List Block) (mem : List Block)
    (src dst n : Nat) : List Block :=
  if hw then transformLoop (aes128EncBlock s) mem src dst n else mem

/-- Model of `aes128_decrypt_blocks` (lines 497-511). -/
def aes128_decrypt_blocks (hw : Bool) (s : List Block) (mem : List Block)
    (src dst n : Nat) : List Block :=
  if hw then transformLoop (aes128DecBlock s) mem src dst n else mem

/-- Model of `aes192_encrypt_blocks` (lines 460-476). -/
def aes192_encrypt_blocks (hw : Bool) (s : List Col) (mem : List Block)
    (src dst n : Nat) : List Block :=
  if hw then transformLoop (aes192EncBlock s) mem src dst n else mem

/-- Model of `aes192_decrypt_blocks` (lines 512-528). -/
def aes192_decrypt_blocks (hw : Bool) (s : List Col) (mem : List Block)
    (src dst n : Nat) : List Block :=
  if hw then transformLoop (aes192DecBlock s) mem src dst n else mem

/-- Model of `aes256_encrypt_blocks` (lines 477-495). -/
def aes256_encrypt_blocks (hw : Bool) (s : List Block) (mem : List Block)
    (src dst n : Nat) : List Block :=
  if hw then transformLoop (aes256EncBlock s) mem src dst n else mem

/-- Model of `aes256_decrypt_blocks` (lines 529-547). -/
def aes256_decrypt_blocks (hw : Bool) (s : List Block) (mem : List Block)
    (src dst n : Nat) : List Block :=
  if hw then transformLoop (aes256DecBlock s) mem src dst n else mem

/-- Model of the inline wrapper `aes128_encrypt_block` of `include/aes.h`
(line 78): a batch call with one block. -/
def aes128_encrypt_block (hw : Bool) (s : List Block) (mem : List Block)
    (src dst : Nat) : List Block :=
  aes128_encrypt_blocks hw s mem src dst 1

/-- Model of the inline wrapper `aes128_decrypt_block` of `include/aes.h`
(line 82). -/
def aes128_decrypt_block (hw : Bool) (s : List Block) (mem : List Block)
    (src dst : Nat) : List Block :=
  aes128_decrypt_blocks hw s mem src dst 1

/-- The sixteen bytes of a block, in memory order, as naturals. -/
def blockBytes (b : Block) : List Nat :=
  [b.col0.c0.1, b.col0.c1.1, b.col0.c2.1, b.col0.c3.1,
   b.col1.c0.1, b.col1.c1.1, b.col1.c2.1, b.col1.c3.1,
   b.col2.c0.1, b.col2.c1.1, b.col2.c2.1, b.col2.c3.1,
   b.col3.c0.1, b.col3.c1.1, b.col3.c2.1, b.col3.c3.1]

/-- The bytes of a block-granular schedule, in memory order. -/
def blocksBytes : List Block → List Nat
  | [] => []
  | b :: bs => blockBytes b ++ blocksBytes bs

/-- The four bytes of a word, in memory order. -/
def colBytes (c : Col) : List Nat := [c.c0.1, c.c1.1, c.c2.1, c.c3.1]

/-- The bytes of a word-granular schedule, in memory order. -/
def colsBytes : List Col → List Nat
  | [] => []
  | c :: cs => colBytes c ++ colsBytes cs

/-- The CPUID facts the startup probe reads: the highest valid function id
(leaf 0, EAX) and the ECX/EDX feature words of leaf 1. -/
structure CpuId where
  maxFunc : Nat
  leaf1ecx : Nat
  leaf1edx : Nat

/-- Model of `startup` in `src/general.c` (lines 23-45): when the highest
function id is at least 1 the leaf-1 feature words are read, otherwise both
are zero; the flag is bit 25 of ECX (AES-NI) AND bit 26 of EDX (SSE2). -/
def startup (c : CpuId) : Bool :=
  let ecx := if 1 ≤ c.maxFunc then c.leaf1ecx else 0
  let edx := if 1 ≤ c.maxFunc then c.leaf1edx else 0
  (((ecx >>> 25) &&& 1) != 0) && (((edx >>> 26) &&& 1) != 0)

/-- Build a block from sixteen byte values in memory order. -/
def blockOfBytes (b0 b1 b2 b3 b4 b5 b6 b7 b8 b9 b10 b11 b12 b13 b14 b15 : Nat) :
    Block :=
  ⟨⟨mkByte b0, mkByte b1, mkByte b2, mkByte b3⟩,
   ⟨mkByte b4, mkByte b5, mkByte b6, mkByte b7⟩,
   ⟨mkByte b8, mkByte b9, mkByte b10, mkByte b11⟩,
   ⟨mkByte b12, mkByte b13, mkByte b14, mkByte b15⟩⟩

/-- The self-test plaintext (`tests/aes_tests.c` line 10). -/
def katPlain : Block :=
  blockOfBytes 0x32 0x43 0xf6 0xa8 0x88 0x5a 0x30 0x8d 0x31 0x31 0x98 0xa2 0xe0 0x37 0x07 0x34

/-- The self-test key (`tests/aes_tests.c` line 11). -/
def katKey : Block :=
  blockOfBytes 0x2b 0x7e 0x15 0x16 0x28 0xae 0xd2 0xa6 0xab 0xf7 0x15 0x88 0x09 0xcf 0x4f 0x3c

/-- The self-test expected ciphertext (`tests/aes_tests.c` line 12). -/
def katCipher : Block :=
  blockOfBytes 0x39 0x25 0x84 0x1d 0x02 0xdc 0x09 0xfb 0xdc 0x11 0x85 0x97 0x19 0x6a 0x0b 0x32

/-- Modelled from the spec: `aes128_enc`, called by `aes128_self_test`, is
declared nowhere in the repository; per spec section 4.4 the self test runs
`expand_full`, then `encrypt_block`, so this is the hardware-path single-block
encryption on the given schedule. -/
def aes128_enc (s : List Block) (plain : Block) : Block := aes128EncBlock s plain

/-- Modelled from the spec: `aes128_dec`, called by `aes128_self_test`, is
declared nowhere in the repository; per spec section 4.4 it is the
hardware-path single-block decryption on the given (full) schedule. -/
def aes128_dec (s : List Block) (cipher : Block) : Block := aes128DecBlock s cipher

/-- The comparison-and-code part of `aes128_self_test` (`tests/aes_tests.c`
lines 20-22): `out = 0`, set to 1 on encryption mismatch, or-ed with 2 on
decryption mismatch. -/
def selfTestCode (cc pp : Block) : Nat :=
  let o1 := if cc = katCipher then 0 else 1
  if pp = katPlain then o1 else o1 ||| 2

/-- Model of `aes128_self_test` (`tests/aes_tests.c` lines 9-23), on the
hardware path: expand the key as a full schedule, encrypt the plaintext,
decrypt the expected ciphertext, compare both legs independently. -/
def aes128_self_test : Nat :=
  let sched := aes128_load_key_internal true katKey (List.replicate 20 zeroBlock) true
  selfTestCode (aes128_enc sched katPlain) (aes128_dec sched katCipher)

/-- C logical AND (`&&`) on integer values: 1 if both are nonzero, else 0.
The source macros `SUB_WORD`/`SUBROT_WORD` use `&&` where masking was
intended. -/
def cLAnd (a b : Nat) : Nat := if a ≠ 0 ∧ b ≠ 0 then 1 else 0

/-- C logical OR (`||`) on integer values: 0 if both are zero, else 1. -/
def cLOr (a b : Nat) : Nat := if a = 0 ∧ b = 0 then 0 else 1

/-- Table lookup as the C code indexes `Sbox`. -/
def sboxNat (i : Nat) : Nat := SboxT.getD i 0

/-- The macro `SUB_WORD` of `src/aes.c` (lines 65-69) exactly as written,
with C `&&` and `||` semantics (left associated). -/
def c_SUB_WORD (w : Nat) : Nat :=
  cLOr (cLOr (cLOr (sboxNat (cLAnd w 0xFF))
    (sboxNat (cLAnd (w >>> 8) 0xFF) <<< 8))
    (sboxNat (cLAnd (w >>> 16) 0xFF) <<< 16))
    (sboxNat (w >>> 24) <<< 24)

/-- The macro `SUBROT_WORD` of `src/aes.c` (lines 73-77) exactly as written. -/
def c_SUBROT_WORD (w : Nat) : Nat :=
  cLOr (cLOr (cLOr (sboxNat (cLAnd w 0xFF) <<< 8)
    (sboxNat (cLAnd (w >>> 8) 0xFF) <<< 16))
    (sboxNat (cLAnd (w >>> 16) 0xFF) <<< 24))
    (sboxNat (w >>> 24))

/-- Modelled from the spec (section 4.2 and claim C4): `SubWord` applies the
forward S-box to each of the word's four bytes independently; written with
bitwise masking and or, for comparison with the source macro `SUB_WORD`. -/
def specSubWord (w : Nat) : Nat :=
  sboxNat (w &&& 0xFF) ||| (sboxNat ((w >>> 8) &&& 0xFF) <<< 8)
  ||| (sboxNat ((w >>> 16) &&& 0xFF) <<< 16) ||| (sboxNat ((w >>> 24) &&& 0xFF) <<< 24)

/-- The AES-128 decryption pipeline exactly as claim C3 words it: the FIRST
xor uses `round_key[0]`, the interior rounds use the pre-transformed keys at
indices 11-19 in increasing order, and the FINAL round uses `round_key[10]`.
Written for comparison with `aes128DecBlock`, the pipeline the code runs. -/
def claimC3DecBlock128 (s : List Block) (m : Block) : Block :=
  aesdeclast
    (aesdec (aesdec (aesdec (aesdec (aesdec (aesdec (aesdec (aesdec (aesdec
      (xorB m (s.getD 0 zeroBlock))
      (s.getD 11 zeroBlock)) (s.getD 12 zeroBlock)) (s.getD 13 zeroBlock))
      (s.getD 14 zeroBlock)) (s.getD 15 zeroBlock)) (s.getD 16 zeroBlock))
      (s.getD 17 zeroBlock)) (s.getD 18 zeroBlock)) (s.getD 19 zeroBlock))
    (s.getD 10 zeroBlock)

/-- The equivalent-inverse-cipher decryption pipeline in its generic,
index-ordered form: xor with round key `nr`, then `aesdec` with the
pre-transformed keys at indices `nr+1 .. 2*nr-1` in increasing order, then
`aesdeclast` with round key 0. -/
def equivInvDecrypt (nr : Nat) (k : Nat → Block) (c : Block) : Block :=
  aesdeclast
    (((List.range (nr - 1)).map (fun j => k (nr + 1 + j))).foldl aesdec
      (xorB c (k nr)))
    (k 0)

/-- The encryption round pipeline on an abstract key sequence: xor with the
first key, `aesenc` with each middle key, `aesenclast` with the last key. -/
def encPipeline (k0 : Block) (mids : List Block) (kL : Block) (p : Block) : Block :=
  aesenclast (mids.foldl aesenc (xorB p k0)) kL

/-- The decryption round pipeline on an abstract key sequence: xor with the
last encryption key, `aesdec` with each listed decryption key, `aesdeclast`
with the first encryption key. -/
def decPipeline (kL : Block) (dks : List Block) (k0 : Block) (c : Block) : Block :=
  aesdeclast (dks.foldl aesdec (xorB c kL)) k0

/-- A word with all four bytes equal to 1, used as a recognizable filler for
uninitialized schedule buffers in counterexamples. -/
def oneCol : Col := ⟨mkByte 1, mkByte 1, mkByte 1, mkByte 1⟩

/-- A block with all sixteen bytes equal to 1. -/
def oneBlock : Block := ⟨oneCol, oneCol, oneCol, oneCol⟩

/-- A concrete 20-entry schedule whose entries are pairwise distinct, used in
the claim C3 counterexample. -/
def testSched20 : List Block :=
  (List.range 20).map (fun i => blockOfBytes i i i i i i i i i i i i i i i i)

/-- The column whose byte at position `j` is `x` and whose other bytes are
zero, used to decompose a column for the MixColumns inversion proof. -/
def basisCol : Fin 4 → Byte → Col
  | 0, x => ⟨x, zeroByte, zeroByte, zeroByte⟩
  | 1, x => ⟨zeroByte, x, zeroByte, zeroByte⟩
  | 2, x => ⟨zeroByte, zeroByte, x, zeroByte⟩
  | 3, x => ⟨zeroByte, zeroByte, zeroByte, x⟩

instance : Std.Associative bxor :=
  ⟨fun a b c => Fin.ext (Nat.xor_assoc a.1 b.1 c.1)⟩

instance : Std.Commutative bxor :=
  ⟨fun a b => Fin.ext (Nat.xor_comm a.1 b.1)⟩

theorem bxor_zero (a : Byte) : bxor a zeroByte = a := Fin.ext (Nat.xor_zero a.1)

theorem zero_bxor (a : Byte) : bxor zeroByte a = a := Fin.ext (Nat.zero_xor a.1)

theorem bxor_cancel (a b : Byte) : bxor (bxor a b) b = a :=
  Fin.ext (Nat.xor_cancel_right b.1 a.1)

/-- The inverse S-box table undoes the forward S-box table on every byte. -/
theorem invSbox_sbox : ∀ b : Byte, invSbox (sbox b) = b := by decide

theorem two_mul_xor (a b : Nat) : 2 * (a ^^^ b) = 2 * a ^^^ 2 * b := by
  have h : ∀ x : Nat, 2 * x = x <<< 1 := fun x => by
    rw [Nat.shiftLeft_eq, Nat.pow_one, Nat.mul_comm]
  rw [h, h, h]
  apply Nat.eq_of_testBit_eq
  intro i
  simp [Nat.testBit_shiftLeft, Nat.testBit_xor, Bool.and_xor_distrib_left]

theorem mod_two_pow_xor (x y n : Nat) : (x ^^^ y) % 2 ^ n = (x % 2 ^ n) ^^^ (y % 2 ^ n) := by
  apply Nat.eq_of_testBit_eq
  intro i
  simp [Nat.testBit_mod_two_pow, Nat.testBit_xor, Bool.and_xor_distrib_left]

theorem mod256_xor (x y : Nat) : (x ^^^ y) % 256 = (x % 256) ^^^ (y % 256) :=
  mod_two_pow_xor x y 8

theorem ge128_iff_testBit7 (x : Nat) (hx : x < 256) :
    128 ≤ x ↔ Nat.testBit x 7 = true := by
  rw [Nat.testBit_to_div_mod]
  simp only [decide_eq_true_eq]
  omega

/-- The conditional reduction constant of `xtime` distributes over xor:
whether the reduction applies is governed by bit 7, which xors. -/
theorem pad_xor (a b : Nat) (ha : a < 256) (hb : b < 256) :
    (if 128 ≤ (a ^^^ b) then 0x11B else 0)
      = (if 128 ≤ a then 0x11B else 0) ^^^ (if 128 ≤ b then 0x11B else 0) := by
  have hab : a ^^^ b < 256 := xor_byte_lt ha hb
  have h1 := ge128_iff_testBit7 a ha
  have h2 := ge128_iff_testBit7 b hb
  have h3 := ge128_iff_testBit7 (a ^^^ b) hab
  by_cases ca : 128 ≤ a <;> by_cases cb : 128 ≤ b
  · have hx : ¬ 128 ≤ (a ^^^ b) := by
      rw [h3]
      simp [Nat.testBit_xor, h1.mp ca, h2.mp cb]
    rw [if_neg hx, if_pos ca, if_pos cb, Nat.xor_self]
  · have tb : Nat.testBit b 7 = false := by
      rw [← Bool.not_eq_true]
      exact fun h => cb (h2.mpr h)
    have hx : 128 ≤ (a ^^^ b) := h3.mpr (by simp [Nat.testBit_xor, h1.mp ca, tb])
    rw [if_pos hx, if_pos ca, if_neg cb, Nat.xor_zero]
  · have ta : Nat.testBit a 7 = false := by
      rw [← Bool.not_eq_true]
      exact fun h => ca (h1.mpr h)
    have hx : 128 ≤ (a ^^^ b) := h3.mpr (by simp [Nat.testBit_xor, ta, h2.mp cb])
    rw [if_pos hx, if_neg ca, if_pos cb, Nat.zero_xor]
  · have ta : Nat.testBit a 7 = false := by
      rw [← Bool.not_eq_true]
      exact fun h => ca (h1.mpr h)
    have tb : Nat.testBit b 7 = false := by
      rw [← Bool.not_eq_true]
      exact fun h => cb (h2.mpr h)
    have hx : ¬ 128 ≤ (a ^^^ b) := by
      rw [h3]
      simp [Nat.testBit_xor, ta, tb]
    rw [if_neg hx, if_neg ca, if_neg cb, Nat.xor_self]

/-- Multiplication by x in GF(2^8) distributes over xor. -/
theorem xtime_linear : ∀ a b : Byte, xtime (bxor a b) = bxor (xtime a) (xtime b) := by
  intro a b
  apply Fin.ext
  show ((2 * (a.1 ^^^ b.1)) ^^^ (if 128 ≤ (a.1 ^^^ b.1) then 0x11B else 0)) % 256
    = ((2 * a.1 ^^^ (if 128 ≤ a.1 then 0x11B else 0)) % 256)
      ^^^ ((2 * b.1 ^^^ (if 128 ≤ b.1 then 0x11B else 0)) % 256)
  rw [two_mul_xor, pad_xor a.1 b.1 a.2 b.2, ← mod256_xor]
  have hre : (2 * a.1 ^^^ 2 * b.1)
        ^^^ ((if 128 ≤ a.1 then 0x11B else 0) ^^^ (if 128 ≤ b.1 then 0x11B else 0))
      = (2 * a.1 ^^^ (if 128 ≤ a.1 then 0x11B else 0))
        ^^^ (2 * b.1 ^^^ (if 128 ≤ b.1 then 0x11B else 0)) := by
    ac_rfl
  rw [hre]

theorem gm3_linear (a b : Byte) : gm3 (bxor a b) = bxor (gm3 a) (gm3 b) := by
  unfold gm3
  rw [xtime_linear]
  ac_rfl

theorem gm9_linear (a b : Byte) : gm9 (bxor a b) = bxor (gm9 a) (gm9 b) := by
  unfold gm9
  rw [xtime_linear, xtime_linear, xtime_linear]
  ac_rfl

theorem gm11_linear (a b : Byte) : gm11 (bxor a b) = bxor (gm11 a) (gm11 b) := by
  unfold gm11
  rw [xtime_linear, xtime_linear, xtime_linear]
  ac_rfl

theorem gm13_linear (a b : Byte) : gm13 (bxor a b) = bxor (gm13 a) (gm13 b) := by
  unfold gm13
  rw [xtime_linear, xtime_linear, xtime_linear]
  ac_rfl

theorem gm14_linear (a b : Byte) : gm14 (bxor a b) = bxor (gm14 a) (gm14 b) := by
  unfold gm14
  rw [xtime_linear, xtime_linear, xtime_linear]
  ac_rfl


theorem mixCol_linear (a b : Col) :
    mixCol (xorCol a b) = xorCol (mixCol a) (mixCol b) := by
  obtain ⟨a0, a1, a2, a3⟩ := a
  obtain ⟨b0, b1, b2, b3⟩ := b
  simp only [mixCol, xorCol, Col.mk.injEq]
  refine ⟨?_, ?_, ?_, ?_⟩ <;>
    simp only [xtime_linear, gm3_linear] <;> ac_rfl

theorem invMixCol_linear (a b : Col) :
    invMixCol (xorCol a b) = xorCol (invMixCol a) (invMixCol b) := by
  obtain ⟨a0, a1, a2, a3⟩ := a
  obtain ⟨b0, b1, b2, b3⟩ := b
  simp only [invMixCol, xorCol, Col.mk.injEq]
  refine ⟨?_, ?_, ?_, ?_⟩ <;>
    simp only [gm9_linear, gm11_linear, gm13_linear, gm14_linear] <;> ac_rfl

set_option maxHeartbeats 2000000 in
/-- InvMixColumns inverts MixColumns on every basis column at byte position 0. -/
theorem invMixCol_mixCol_basis0 :
    ∀ x : Byte, invMixCol (mixCol (basisCol 0 x)) = basisCol 0 x := by
  decide

set_option maxHeartbeats 2000000 in
/-- InvMixColumns inverts MixColumns on every basis column at byte position 1. -/
theorem invMixCol_mixCol_basis1 :
    ∀ x : Byte, invMixCol (mixCol (basisCol 1 x)) = basisCol 1 x := by
  decide

set_option maxHeartbeats 2000000 in
/-- InvMixColumns inverts MixColumns on every basis column at byte position 2. -/
theorem invMixCol_mixCol_basis2 :
    ∀ x : Byte, invMixCol (mixCol (basisCol 2 x)) = basisCol 2 x := by
  decide

set_option maxHeartbeats 2000000 in
/-- InvMixColumns inverts MixColumns on every basis column at byte position 3. -/
theorem invMixCol_mixCol_basis3 :
    ∀ x : Byte, invMixCol (mixCol (basisCol 3 x)) = basisCol 3 x := by
  decide

/-- Decomposition of a column into its four basis columns. -/
theorem col_eq_xor_basis (s0 s1 s2 s3 : Byte) :
    (⟨s0, s1, s2, s3⟩ : Col)
      = xorCol (xorCol (basisCol 0 s0) (basisCol 1 s1))
          (xorCol (basisCol 2 s2) (basisCol 3 s3)) := by
  simp only [basisCol, xorCol, Col.mk.injEq]
  refine ⟨?_, ?_, ?_, ?_⟩ <;> simp [bxor_zero, zero_bxor]

/-- InvMixColumns inverts MixColumns on one column. -/
theorem invMixCol_mixCol (c : Col) : invMixCol (mixCol c) = c := by
  obtain ⟨s0, s1, s2, s3⟩ := c
  rw [col_eq_xor_basis s0 s1 s2 s3]
  rw [mixCol_linear, mixCol_linear, mixCol_linear]
  rw [invMixCol_linear, invMixCol_linear, invMixCol_linear]
  rw [invMixCol_mixCol_basis0, invMixCol_mixCol_basis1, invMixCol_mixCol_basis2,
    invMixCol_mixCol_basis3]

theorem invShiftRows_shiftRows (b : Block) : invShiftRows (shiftRows b) = b := rfl

theorem invShiftRows_subBytes (b : Block) :
    invShiftRows (subBytes b) = subBytes (invShiftRows b) := rfl

theorem invSubBytes_subBytes (b : Block) : invSubBytes (subBytes b) = b := by
  obtain ⟨⟨a0, a1, a2, a3⟩, ⟨b0, b1, b2, b3⟩, ⟨c0, c1, c2, c3⟩, ⟨d0, d1, d2, d3⟩⟩ := b
  simp only [subBytes, invSubBytes, mapBlock, mapCol, invSbox_sbox]

theorem invMixColumns_linear (a b : Block) :
    invMixColumns (xorB a b) = xorB (invMixColumns a) (invMixColumns b) := by
  simp only [invMixColumns, xorB, invMixCol_linear]

theorem invMixColumns_mixColumns (b : Block) : invMixColumns (mixColumns b) = b := by
  obtain ⟨c0, c1, c2, c3⟩ := b
  simp only [mixColumns, invMixColumns, invMixCol_mixCol]

theorem xorB_cancel (a b : Block) : xorB (xorB a b) b = a := by
  obtain ⟨⟨a0, a1, a2, a3⟩, ⟨b0, b1, b2, b3⟩, ⟨c0, c1, c2, c3⟩, ⟨d0, d1, d2, d3⟩⟩ := a
  obtain ⟨⟨e0, e1, e2, e3⟩, ⟨f0, f1, f2, f3⟩, ⟨g0, g1, g2, g3⟩, ⟨h0, h1, h2, h3⟩⟩ := b
  simp only [xorB, xorCol, bxor_cancel]

/-- One `aesdec` round with a pre-transformed key undoes one `aesenc` round:
this is the equivalent-inverse-cipher step. -/
theorem aesdec_undoes_aesenc (E k : Block) :
    aesdec (subBytes (shiftRows (aesenc E k))) (aesimc k) = subBytes (shiftRows E) := by
  unfold aesdec
  rw [invShiftRows_subBytes, invShiftRows_shiftRows, invSubBytes_subBytes]
  unfold aesenc aesimc
  rw [invMixColumns_linear, invMixColumns_mixColumns]
  exact xorB_cancel _ _

/-- The chain of `aesdec` rounds over the InvMixColumns images of the middle
round keys, in reverse order, undoes the chain of `aesenc` rounds. -/
theorem decChain_undoes_encChain (mids : List Block) (s : Block) :
    (List.map aesimc mids.reverse).foldl aesdec
        (subBytes (shiftRows (mids.foldl aesenc s)))
      = subBytes (shiftRows s) := by
  induction mids using List.reverseRecOn with
  | nil => rfl
  | append_singleton ms k ih =>
    rw [List.reverse_append, List.foldl_append]
    simp only [List.reverse_cons, List.reverse_nil, List.nil_append,
      List.singleton_append, List.map_cons, List.foldl_cons, List.foldl_nil]
    rw [aesdec_undoes_aesenc]
    exact ih

/-- The equivalent-inverse-cipher decryption pipeline inverts the encryption
pipeline for every key sequence and every block. -/
theorem dec_inverts_enc (k0 kL : Block) (mids : List Block) (p : Block) :
    decPipeline kL (List.map aesimc mids.reverse) k0 (encPipeline k0 mids kL p) = p := by
  unfold decPipeline encPipeline aesenclast
  rw [xorB_cancel, decChain_undoes_encChain]
  unfold aesdeclast
  rw [invShiftRows_subBytes, invShiftRows_shiftRows, invSubBytes_subBytes]
  exact xorB_cancel p k0

theorem getD_set_ne (l : List Block) (i j : Nat) (a : Block) (h : i ≠ j) :
    (l.set i a).getD j zeroBlock = l.getD j zeroBlock := by
  simp [List.getD_eq_getElem?_getD, List.getElem?_set_ne h]

theorem getD_set_self (l : List Block) (i : Nat) (a : Block) (h : i < l.length) :
    (l.set i a).getD i zeroBlock = a := by
  simp [List.getD_eq_getElem?_getD, List.getElem?_set_self h]

/-- The transform loop only writes at destination indices, so indices below
`dst` are unchanged. -/
theorem transformLoop_getD_lt (f : Block → Block) (mem : List Block)
    (src dst n j : Nat) (h : j < dst) :
    (transformLoop f mem src dst n).getD j zeroBlock = mem.getD j zeroBlock := by
  induction n generalizing mem src dst with
  | zero => rfl
  | succ n ih =>
    show (transformLoop f (mem.set dst (f (mem.getD src zeroBlock)))
        (src + 1) (dst + 1) n).getD j zeroBlock = mem.getD j zeroBlock
    rw [ih _ _ _ (Nat.lt_succ_of_lt h)]
    exact getD_set_ne _ _ _ _ (by omega)

/-- Batch transform with source and destination regions disjoint: the block
written at `dst + j` is the transform of the original block at `src + j`. -/
theorem transformLoop_disjoint (f : Block → Block) (mem : List Block)
    (src dst n : Nat) (hd : dst + n ≤ src ∨ src + n ≤ dst)
    (hlen : dst + n ≤ mem.length) :
    ∀ j, j < n → (transformLoop f mem src dst n).getD (dst + j) zeroBlock
      = f (mem.getD (src + j) zeroBlock) := by
  induction n generalizing mem src dst with
  | zero => intro j hj; exact absurd hj (Nat.not_lt_zero j)
  | succ n ih =>
    intro j hj
    show (transformLoop f (mem.set dst (f (mem.getD src zeroBlock)))
        (src + 1) (dst + 1) n).getD (dst + j) zeroBlock = _
    cases j with
    | zero =>
      simp only [Nat.add_zero]
      rw [transformLoop_getD_lt _ _ _ _ _ _ (by omega : dst < dst + 1),
        getD_set_self _ _ _ (by omega)]
    | succ j =>
      have hidx : dst + (j + 1) = (dst + 1) + j := by omega
      have hidx2 : src + (j + 1) = (src + 1) + j := by omega
      rw [hidx, hidx2, ih (mem.set dst (f (mem.getD src zeroBlock))) (src + 1) (dst + 1)
        (by omega) (by simp [List.length_set]; omega) j (by omega),
        getD_set_ne _ _ _ _ (by omega)]

/-- In-place batch transform (`src = dst`): each block is fully read before
its output is stored, so the result at `i + j` is the transform of the
ORIGINAL block at `i + j`, exactly as with disjoint buffers. -/
theorem transformLoop_inplace (f : Block → Block) (mem : List Block)
    (i n : Nat) (hlen : i + n ≤ mem.length) :
    ∀ j, j < n → (transformLoop f mem i i n).getD (i + j) zeroBlock
      = f (mem.getD (i + j) zeroBlock) := by
  induction n generalizing mem i with
  | zero => intro j hj; exact absurd hj (Nat.not_lt_zero j)
  | succ n ih =>
    intro j hj
    show (transformLoop f (mem.set i (f (mem.getD i zeroBlock)))
        (i + 1) (i + 1) n).getD (i + j) zeroBlock = _
    cases j with
    | zero =>
      simp only [Nat.add_zero]
      rw [transformLoop_getD_lt _ _ _ _ _ _ (by omega : i < i + 1),
        getD_set_self _ _ _ (by omega)]
    | succ j =>
      have hidx : i + (j + 1) = (i + 1) + j := by omega
      rw [hidx, ih (mem.set i (f (mem.getD i zeroBlock))) (i + 1)
        (by simp [List.length_set]; omega) j (by omega),
        getD_set_ne _ _ _ _ (by omega)]

theorem cLOr_left_ne (a b : Nat) (h : a ≠ 0) : cLOr a b = 1 := by
  simp [cLOr, h]

theorem shiftand_eq_testBit (x n : Nat) :
    (((x >>> n) &&& 1) != 0) = Nat.testBit x n := by
  show (((x >>> n) &&& 1) != 0) = (1 &&& (x >>> n) != 0)
  rw [Nat.and_comm]

/-- Claim C3 counterexample: the decryption pipeline with the endpoints as the
claim states them (first XOR with `round_key[0]`, final round with
`round_key[Nr]`) disagrees with the pipeline the code runs, already on a
concrete schedule and block. -/
theorem claim3_counterexample :
    claimC3DecBlock128 testSched20 zeroBlock ≠ aes128DecBlock testSched20 zeroBlock := by
  decide

/-- Claim C3 (amended): decryption consumes the full schedule's
pre-transformed round keys in increasing index order from `Nr+1` to `2Nr-1`
for the interior rounds, the FIRST xor of the pipeline uses `round_key[Nr]`,
and the FINAL round uses `round_key[0]`; only those two endpoints use
original untransformed encryption round keys.  This holds for all three key
sizes, for every schedule and block. -/
theorem claim3_dec_key_order :
    (∀ (s : List Block) (c : Block),
        aes128DecBlock s c = equivInvDecrypt 10 (fun i => s.getD i zeroBlock) c)
    ∧ (∀ (s : List Col) (c : Block),
        aes192DecBlock s c = equivInvDecrypt 12 (colsBlockAt s) c)
    ∧ (∀ (s : List Block) (c : Block),
        aes256DecBlock s c = equivInvDecrypt 14 (fun i => s.getD i zeroBlock) c) :=
  ⟨fun _ _ => rfl, fun _ _ => rfl, fun _ _ => rfl⟩

/-- Claim C4 (code bug): the `SUB_WORD` and `SUBROT_WORD` macros use the C
logical operators `&&` and `||` where bitwise `&` and `|` were intended, so
both collapse to the constant 1; in particular `SUB_WORD` disagrees with the
SubWord of the key-expansion recurrence (which maps 0 to 0x63636363). -/
theorem claim4_subword_macro_bug :
    (∀ w : Nat, c_SUB_WORD w = 1) ∧ (∀ w : Nat, c_SUBROT_WORD w = 1)
    ∧ c_SUB_WORD 0 ≠ specSubWord 0 := by
  refine ⟨?_, ?_, by decide⟩
  · intro w
    by_cases h : w = 0
    · subst h; decide
    · have h1 : cLAnd w 0xFF = 1 := by simp [cLAnd, h]
      unfold c_SUB_WORD
      rw [h1]
      rw [cLOr_left_ne _ _ (by decide : sboxNat 1 ≠ 0)]
      rw [cLOr_left_ne _ _ (by decide : (1 : Nat) ≠ 0)]
      exact cLOr_left_ne _ _ (by decide)
  · intro w
    by_cases h : w = 0
    · subst h; decide
    · have h1 : cLAnd w 0xFF = 1 := by simp [cLAnd, h]
      unfold c_SUBROT_WORD
      rw [h1]
      rw [cLOr_left_ne _ _ (by decide : sboxNat 1 <<< 8 ≠ 0)]
      rw [cLOr_left_ne _ _ (by decide : (1 : Nat) ≠ 0)]
      exact cLOr_left_ne _ _ (by decide)

/-- Claim C6: with the hardware flag false, every key-schedule generator and
every block transform returns with the caller's buffer entirely unchanged
(the portable branches of `aes.c` are empty). -/
theorem claim6_no_hw_no_write :
    (∀ (key : Block) (buf : List Block) (full : Bool),
        aes128_load_key_internal false key buf full = buf)
    ∧ (∀ (key : Key192) (buf : List Col) (full : Bool),
        aes192_load_key_internal false key buf full = buf)
    ∧ (∀ (key : Key256) (buf : List Block) (full : Bool),
        aes256_load_key_internal false key buf full = buf)
    ∧ (∀ (s mem : List Block) (src dst n : Nat),
        aes128_encrypt_blocks false s mem src dst n = mem
        ∧ aes128_decrypt_blocks false s mem src dst n = mem
        ∧ aes256_encrypt_blocks false s mem src dst n = mem
        ∧ aes256_decrypt_blocks false s mem src dst n = mem)
    ∧ (∀ (s : List Col) (mem : List Block) (src dst n : Nat),
        aes192_encrypt_blocks false s mem src dst n = mem
        ∧ aes192_decrypt_blocks false s mem src dst n = mem) :=
  ⟨fun _ _ _ => rfl, fun _ _ _ => rfl, fun _ _ _ => rfl,
   fun _ _ _ _ _ => ⟨rfl, rfl, rfl, rfl⟩, fun _ _ _ _ _ => ⟨rfl, rfl⟩⟩

/-- Claim C8: the startup probe sets the process-wide flag to true exactly
when CPUID leaf 1 reports both the AES bit (ECX bit 25) and the SSE2 bit
(EDX bit 26), and the flag is false when the CPU supports no function id
at least 1. -/
theorem claim8_capability_flag :
    ∀ c : CpuId,
      startup c = true
        ↔ 1 ≤ c.maxFunc ∧ Nat.testBit c.leaf1ecx 25 ∧ Nat.testBit c.leaf1edx 26 := by
  intro c
  unfold startup
  by_cases h : 1 ≤ c.maxFunc
  · simp only [if_pos h, shiftand_eq_testBit, Bool.and_eq_true]
    simp [h]
  · simp [if_neg h, h]

/-- Claim C9: the batched transforms handle each block independently:
with destination and source regions disjoint, the output block at `dst + j`
is exactly the single-block transform of the input block at `src + j`;
batch size 0 writes nothing; and the single-block wrappers of `aes.h` are
the batch call with one block. -/
theorem claim9_batch_single :
    (∀ (s mem : List Block) (src dst n : Nat),
        dst + n ≤ src ∨ src + n ≤ dst → dst + n ≤ mem.length →
        (∀ j, j < n →
          (aes128_encrypt_blocks true s mem src dst n).getD (dst + j) zeroBlock
            = aes128EncBlock s (mem.getD (src + j) zeroBlock))
        ∧ (∀ j, j < n →
          (aes128_decrypt_blocks true s mem src dst n).getD (dst + j) zeroBlock
            = aes128DecBlock s (mem.getD (src + j) zeroBlock)))
    ∧ (∀ (s : List Col) (mem : List Block) (src dst n : Nat),
        dst + n ≤ src ∨ src + n ≤ dst → dst + n ≤ mem.length →
        (∀ j, j < n →
          (aes192_encrypt_blocks true s mem src dst n).getD (dst + j) zeroBlock
            = aes192EncBlock s (mem.getD (src + j) zeroBlock))
        ∧ (∀ j, j < n →
          (aes192_decrypt_blocks true s mem src dst n).getD (dst + j) zeroBlock
            = aes192DecBlock s (mem.getD (src + j) zeroBlock)))
    ∧ (∀ (s mem : List Block) (src dst n : Nat),
        dst + n ≤ src ∨ src + n ≤ dst → dst + n ≤ mem.length →
        (∀ j, j < n →
          (aes256_encrypt_blocks true s mem src dst n).getD (dst + j) zeroBlock
            = aes256EncBlock s (mem.getD (src + j) zeroBlock))
        ∧ (∀ j, j < n →
          (aes256_decrypt_blocks true s mem src dst n).getD (dst + j) zeroBlock
            = aes256DecBlock s (mem.getD (src + j) zeroBlock)))
    ∧ (∀ (sb : List Block) (sw : List Col) (mem : List Block) (src dst : Nat),
        aes128_encrypt_blocks true sb mem src dst 0 = mem
        ∧ aes128_decrypt_blocks true sb mem src dst 0 = mem
        ∧ aes192_encrypt_blocks true sw mem src dst 0 = mem
        ∧ aes192_decrypt_blocks true sw mem src dst 0 = mem
        ∧ aes256_encrypt_blocks true sb mem src dst 0 = mem
        ∧ aes256_decrypt_blocks true sb mem src dst 0 = mem)
    ∧ (∀ (s : List Block) (b : Block),
        aes128_encrypt_block true s [b] 0 0 = [aes128EncBlock s b]
        ∧ aes128_decrypt_block true s [b] 0 0 = [aes128DecBlock s b]) := by
  refine ⟨?_, ?_, ?_, ?_, ?_⟩
  · intro s mem src dst n hd hlen
    exact ⟨transformLoop_disjoint _ mem src dst n hd hlen,
      transformLoop_disjoint _ mem src dst n hd hlen⟩
  · intro s mem src dst n hd hlen
    exact ⟨transformLoop_disjoint _ mem src dst n hd hlen,
      transformLoop_disjoint _ mem src dst n hd hlen⟩
  · intro s mem src dst n hd hlen
    exact ⟨transformLoop_disjoint _ mem src dst n hd hlen,
      transformLoop_disjoint _ mem src dst n hd hlen⟩
  · intro sb sw mem src dst
    exact ⟨rfl, rfl, rfl, rfl, rfl, rfl⟩
  · intro s b
    exact ⟨rfl, rfl⟩

/-- Witness for claim C9 at a concrete input. -/
theorem claim9_batch_single_witness :
    (aes128_encrypt_blocks true (List.replicate 20 zeroBlock)
        [oneBlock, zeroBlock] 0 1 1).getD 1 zeroBlock
      = aes128EncBlock (List.replicate 20 zeroBlock) oneBlock :=
  (claim9_batch_single.1 (List.replicate 20 zeroBlock) [oneBlock, zeroBlock] 0 1 1
    (Or.inr (by decide)) (by decide)).1 0 (by decide)

/-- Claim C10: encrypting or decrypting in place (source index equal to
destination index) gives, at every block of the batch, the single-block
transform of the ORIGINAL block, i.e. the same final destination contents as
with disjoint buffers, because each block is fully read before its output is
stored. -/
theorem claim10_inplace_alias :
    (∀ (s mem : List Block) (i n : Nat), i + n ≤ mem.length →
      (∀ j, j < n →
        (aes128_encrypt_blocks true s mem i i n).getD (i + j) zeroBlock
          = aes128EncBlock s (mem.getD (i + j) zeroBlock))
      ∧ (∀ j, j < n →
        (aes128_decrypt_blocks true s mem i i n).getD (i + j) zeroBlock
          = aes128DecBlock s (mem.getD (i + j) zeroBlock)))
    ∧ (∀ (s : List Col) (mem : List Block) (i n : Nat), i + n ≤ mem.length →
      (∀ j, j < n →
        (aes192_encrypt_blocks true s mem i i n).getD (i + j) zeroBlock
          = aes192EncBlock s (mem.getD (i + j) zeroBlock))
      ∧ (∀ j, j < n →
        (aes192_decrypt_blocks true s mem i i n).getD (i + j) zeroBlock
          = aes192DecBlock s (mem.getD (i + j) zeroBlock)))
    ∧ (∀ (s mem : List Block) (i n : Nat), i + n ≤ mem.length →
      (∀ j, j < n →
        (aes256_encrypt_blocks true s mem i i n).getD (i + j) zeroBlock
          = aes256EncBlock s (mem.getD (i + j) zeroBlock))
      ∧ (∀ j, j < n →
        (aes256_decrypt_blocks true s mem i i n).getD (i + j) zeroBlock
          = aes256DecBlock s (mem.getD (i + j) zeroBlock))) := by
  refine ⟨?_, ?_, ?_⟩
  · intro s mem i n hlen
    exact ⟨transformLoop_inplace _ mem i n hlen, transformLoop_inplace _ mem i n hlen⟩
  · intro s mem i n hlen
    exact ⟨transformLoop_inplace _ mem i n hlen, transformLoop_inplace _ mem i n hlen⟩
  · intro s mem i n hlen
    exact ⟨transformLoop_inplace _ mem i n hlen, transformLoop_inplace _ mem i n hlen⟩

/-- Witness for claim C10 at a concrete input. -/
theorem claim10_inplace_alias_witness :
    (aes128_decrypt_blocks true (List.replicate 20 oneBlock)
        [oneBlock] 0 0 1).getD 0 zeroBlock
      = aes128DecBlock (List.replicate 20 oneBlock) oneBlock :=
  (claim10_inplace_alias.1 (List.replicate 20 oneBlock) [oneBlock] 0 1 (by decide)).2
    0 (by decide)

/-- Claim C1: the AES-128 round trip holds for EVERY key, every pair of
schedule buffers and every block; but for AES-192 the round trip fails on a
concrete input, because the key generator leaves words 50-51 of the
52-word encryption schedule unwritten, so the encryption-only schedule (here
expanded into a zero-filled buffer) and the full schedule (here expanded into
a one-filled buffer) disagree on round key 12. -/
theorem claim1_roundtrip :
    (∀ (key : Block) (bufE bufF : List Block) (p : Block),
        aes128DecBlock (aes128_load_key_internal true key bufF true)
          (aes128EncBlock (aes128_load_key_internal true key bufE false) p) = p)
    ∧ aes192DecBlock
        (aes192_load_key_internal true ⟨zeroBlock, zeroCol, zeroCol⟩
          (List.replicate 96 oneCol) true)
        (aes192EncBlock
          (aes192_load_key_internal true ⟨zeroBlock, zeroCol, zeroCol⟩
            (List.replicate 96 zeroCol) false) zeroBlock)
      ≠ zeroBlock := by
  constructor
  · intro key bufE bufF p
    exact dec_inverts_enc (aes128Key key 0) (aes128Key key 10)
      [aes128Key key 1, aes128Key key 2, aes128Key key 3, aes128Key key 4,
       aes128Key key 5, aes128Key key 6, aes128Key key 7, aes128Key key 8,
       aes128Key key 9] p
  · decide

/-- Claim C2: for AES-128 the full schedule's first 11 round keys are
byte-identical to the encryption-only schedule for every key and any buffer
contents, and its entries 11-19 are exactly the InvMixColumns images of
encryption round keys 9 down to 1 (keys 0 and 10 appear only once,
untransformed).  For AES-192 the first-`Nr+1`-identical part FAILS on a
concrete input: word 50 (inside round key 12) is never written, so it keeps
whatever the two different buffers held. -/
theorem claim2_schedule_layout :
    (∀ (key : Block) (bufF bufE : List Block),
        (aes128_load_key_internal true key bufF true).take 11
          = (aes128_load_key_internal true key bufE false).take 11
        ∧ (aes128_load_key_internal true key bufF true).drop 11
          = [aesimc (aes128Key key 9), aesimc (aes128Key key 8), aesimc (aes128Key key 7),
             aesimc (aes128Key key 6), aesimc (aes128Key key 5), aesimc (aes128Key key 4),
             aesimc (aes128Key key 3), aesimc (aes128Key key 2), aesimc (aes128Key key 1)])
    ∧ (aes192_load_key_internal true ⟨zeroBlock, zeroCol, zeroCol⟩
          (List.replicate 96 oneCol) true).getD 50 zeroCol
        ≠ (aes192_load_key_internal true ⟨zeroBlock, zeroCol, zeroCol⟩
            (List.replicate 96 zeroCol) false).getD 50 zeroCol := by
  exact ⟨fun key bufF bufE => ⟨rfl, rfl⟩, by decide⟩

/-- Claim C5: the self test expands the fixed key as a full schedule,
encrypts the fixed plaintext, decrypts the fixed ciphertext, and returns 0
(both legs match); and the comparison logic returns exactly the four codes
0/1/2/3 for match/encrypt-mismatch/decrypt-mismatch/both. -/
theorem claim5_self_test :
    aes128_self_test = 0
    ∧ (∀ cc pp : Block,
        selfTestCode cc pp =
          if cc = katCipher then (if pp = katPlain then 0 else 2)
          else (if pp = katPlain then 1 else 3)) := by
  constructor
  · decide
  · intro cc pp
    by_cases h1 : cc = katCipher <;> by_cases h2 : pp = katPlain <;>
      simp [selfTestCode, h1, h2]

theorem blocksBytes_length (l : List Block) : (blocksBytes l).length = 16 * l.length := by
  induction l with
  | nil => rfl
  | cons b bs ih =>
    simp [blocksBytes, blockBytes, List.length_append, ih]
    omega

theorem colsBytes_length (l : List Col) : (colsBytes l).length = 4 * l.length := by
  induction l with
  | nil => rfl
  | cons c cs ih =>
    simp [colsBytes, colBytes, List.length_append, ih]
    omega

theorem aes192EncWords_length (k : Key192) : (aes192EncWords k).length = 50 := by
  simp [aes192EncWords, blockCols]

theorem aes192DecTailWords_length (s : List Col) :
    (aes192DecTailWords s).length = 44 := by
  simp [aes192DecTailWords, blockCols]

theorem load128_enc_length (key : Block) (buf : List Block) :
    (aes128_load_key_internal true key buf false).length = 11 + (buf.drop 11).length := by
  simp [aes128_load_key_internal, aes128EncSchedule]
  omega

theorem load128_full_length (key : Block) (buf : List Block) :
    (aes128_load_key_internal true key buf true).length = 20 := by
  simp [aes128_load_key_internal, aes128EncSchedule, aes128DecTail]

theorem load192_enc_length (key : Key192) (buf : List Col) :
    (aes192_load_key_internal true key buf false).length = 52 + (buf.drop 52).length := by
  simp [aes192_load_key_internal, List.length_append, aes192EncWords_length]
  omega

theorem load192_full_length (key : Key192) (buf : List Col) :
    (aes192_load_key_internal true key buf true).length = 96 := by
  simp [aes192_load_key_internal, List.length_append, aes192EncWords_length,
    aes192DecTailWords_length]

theorem load256_enc_length (key : Key256) (buf : List Block) :
    (aes256_load_key_internal true key buf false).length = 15 + (buf.drop 15).length := by
  simp [aes256_load_key_internal, aes256EncStored, List.length_append]
  omega

theorem load256_full_length (key : Key256) (buf : List Block) :
    (aes256_load_key_internal true key buf true).length = 28 := by
  simp [aes256_load_key_internal, aes256EncStored, aes256DecTail, List.length_append]

/-- Claim C7: the schedule REGIONS have exactly the documented byte sizes
(176/208/240 encryption-only, 320/384/448 full) for every key and buffer;
the AES-128 expansion writes every byte of its region (the result does not
depend on the buffer); but the AES-192 expansion leaves bytes 200-207 of the
208-byte encryption region unwritten and the AES-256 expansion leaves bytes
224-239 of the 240-byte region unwritten, shown on concrete inputs by
varying the initial buffer. -/
theorem claim7_schedule_sizes :
    (∀ (key : Block) (buf : List Block),
        (blocksBytes ((aes128_load_key_internal true key buf false).take 11)).length = 176
        ∧ (blocksBytes (aes128_load_key_internal true key buf true)).length = 320)
    ∧ (∀ (key : Key192) (buf : List Col),
        (colsBytes ((aes192_load_key_internal true key buf false).take 52)).length = 208
        ∧ (colsBytes (aes192_load_key_internal true key buf true)).length = 384)
    ∧ (∀ (key : Key256) (buf : List Block),
        (blocksBytes ((aes256_load_key_internal true key buf false).take 15)).length = 240
        ∧ (blocksBytes (aes256_load_key_internal true key buf true)).length = 448)
    ∧ (∀ (key : Block) (buf1 buf2 : List Block),
        (aes128_load_key_internal true key buf1 false).take 11
          = (aes128_load_key_internal true key buf2 false).take 11)
    ∧ (aes192_load_key_internal true ⟨oneBlock, oneCol, oneCol⟩
          (List.replicate 96 zeroCol) false).getD 50 zeroCol
        ≠ (aes192_load_key_internal true ⟨oneBlock, oneCol, oneCol⟩
            (List.replicate 96 oneCol) false).getD 50 zeroCol
    ∧ (aes256_load_key_internal true ⟨oneBlock, oneBlock⟩
          (List.replicate 28 zeroBlock) false).getD 14 zeroBlock
        ≠ (aes256_load_key_internal true ⟨oneBlock, oneBlock⟩
            (List.replicate 28 oneBlock) false).getD 14 zeroBlock := by
  refine ⟨fun key buf => ⟨?_, ?_⟩, fun key buf => ⟨?_, ?_⟩, fun key buf => ⟨?_, ?_⟩,
    fun key buf1 buf2 => rfl, by decide, by decide⟩
  · rw [blocksBytes_length, List.length_take, load128_enc_length key buf]
    omega
  · rw [blocksBytes_length, load128_full_length key buf]
  · rw [colsBytes_length, List.length_take, load192_enc_length key buf]
    omega
  · rw [colsBytes_length, load192_full_length key buf]
  · rw [blocksBytes_length, List.length_take, load256_enc_length key buf]
    omega
  · rw [blocksBytes_length, load256_full_length key buf]
